import Mathlib

/-!
Verification of the bacteria-resistance simulation engine
(`streamlit_app.py` / `simulasi.py`).

Embedding conventions:
* Python floats are modelled as `ℚ`, Python ints as `ℤ` (counts and
  generations as `ℕ` where the code only ever holds non-negative values).
* Randomness is modelled by explicit tapes: a call that draws from the
  global generator reads the tape at a cursor and advances the cursor, so
  "how many draws a call consumes" is part of each function's result.
  `random.uniform(0, 2*pi)` enters the computation only through
  `(cos θ, sin θ)`, so the tape supplies that pair directly.
* `random.sample` is an abstract function `sample : List Bacteria → ℕ →
  List Bacteria`; theorems that need it assume only the specification-level
  facts about it (length, membership).
* `math.sqrt(d2) < 8` is modelled as `d2 < 8^2` (equivalent for the
  non-negative quantities involved).
-/

/-- The organism record of `Bacteria` (dataclass in both sources).  The
`id`/`parent_id` strings of the streamlit variant are opaque display-only
fields and are omitted. -/
structure Bacteria where
  age : ℤ
  resistance_rate : ℚ
  reproduction_rate : ℚ
  max_age : ℤ
  generation : ℕ
  last_reproduction : ℤ
  x : ℚ
  y : ℚ
deriving DecidableEq, Repr

/-- The survival probability computed inside `survive_antibiotic_exposure`:
`min(1, 0.95 + (r-a)*0.05)` when `r ≥ a`, else `1 - min(0.95, (a-r)*0.8)`. -/
def survivalChance (b : Bacteria) (antibiotic_level : ℚ) : ℚ :=
  if antibiotic_level ≤ b.resistance_rate then
    min 1 (0.95 + (b.resistance_rate - antibiotic_level) * 0.05)
  else
    1 - min 0.95 ((antibiotic_level - b.resistance_rate) * 0.8)

/-- `Bacteria.survive_antibiotic_exposure`: draws one `random.random()`
value from the tape at cursor `k` and survives iff it is strictly below the
survival chance.  Returns the outcome and the advanced cursor. -/
def survive_antibiotic_exposure (b : Bacteria) (antibiotic_level : ℚ)
    (rand : ℕ → ℚ) (k : ℕ) : Bool × ℕ :=
  (decide (rand k < survivalChance b antibiotic_level), k + 1)

/-- Python `int()` on a rational: truncation toward zero. -/
def pyInt (q : ℚ) : ℤ :=
  if 0 ≤ q then ⌊q⌋ else ⌈q⌉

/-- The reproduction interval `max(1, int(reproduction_rate * 10))`. -/
def reproduction_interval (b : Bacteria) : ℤ :=
  max 1 (pyInt (b.reproduction_rate * 10))

/-- `Bacteria.can_reproduce`: the ticks since the last reproduction reach
the interval. -/
def can_reproduce (b : Bacteria) (current_tick : ℤ) : Bool :=
  decide (reproduction_interval b ≤ current_tick - b.last_reproduction)

/-- `Bacteria.is_very_old`: strictly past 80% of the organism's own
maximum age. -/
def is_very_old (b : Bacteria) : Bool :=
  decide ((0.8 : ℚ) < (b.age : ℚ) / (b.max_age : ℚ))

/-- The claim C1's survival probability, written from the spec sentence:
`p = min(1.0, 0.95 + (resistanceRate - antibioticLevel) * 0.05)` when
`resistanceRate ≥ antibioticLevel`, and
`p = 1 - min(0.95, (antibioticLevel - resistanceRate) * 0.8)` otherwise. -/
def specSurvivalProb (resistanceRate antibioticLevel : ℚ) : ℚ :=
  if antibioticLevel ≤ resistanceRate then
    min 1 (0.95 + (resistanceRate - antibioticLevel) * 0.05)
  else
    1 - min 0.95 ((antibioticLevel - resistanceRate) * 0.8)

/-- C1: for every organism and antibiotic level,
`survive_antibiotic_exposure` returns true iff the single uniform draw is
strictly below the survival probability of the spec's formula, and the
cursor advances by exactly one (one draw consumed per call). -/
theorem survive_single_draw_matches_spec (b : Bacteria) (antibiotic_level : ℚ)
    (rand : ℕ → ℚ) (k : ℕ) :
    ((survive_antibiotic_exposure b antibiotic_level rand k).1 = true ↔
      rand k < specSurvivalProb b.resistance_rate antibiotic_level) ∧
    (survive_antibiotic_exposure b antibiotic_level rand k).2 = k + 1 := by
  constructor
  · simp [survive_antibiotic_exposure, survivalChance, specSurvivalProb]
  · rfl

/-- C4: `can_reproduce` is true iff the elapsed ticks reach
`max(1, int(reproduction_rate * 10))`, and the interval is 5 at rate 0.5,
10 at rate 1.0 and 40 at rate 4.0. -/
theorem can_reproduce_interval_formula :
    (∀ (b : Bacteria) (t : ℤ),
      can_reproduce b t = true ↔
        max 1 (pyInt (b.reproduction_rate * 10)) ≤ t - b.last_reproduction) ∧
    (∀ b : Bacteria, b.reproduction_rate = 0.5 → reproduction_interval b = 5) ∧
    (∀ b : Bacteria, b.reproduction_rate = 1 → reproduction_interval b = 10) ∧
    (∀ b : Bacteria, b.reproduction_rate = 4 → reproduction_interval b = 40) := by
  refine ⟨fun b t => ?_, fun b h => ?_, fun b h => ?_, fun b h => ?_⟩
  · simp [can_reproduce, reproduction_interval]
  all_goals norm_num [reproduction_interval, pyInt, h]

/-- Witness for C4 at concrete organisms: rates 0.5, 1.0 and 4.0 give
intervals 5, 10 and 40, and the eligibility test agrees with the formula. -/
theorem can_reproduce_interval_witness :
    (Bacteria.mk 0 0 0.5 100 0 0 0 0).reproduction_rate = 0.5 ∧
    reproduction_interval (Bacteria.mk 0 0 0.5 100 0 0 0 0) = 5 ∧
    reproduction_interval (Bacteria.mk 0 0 1 100 0 0 0 0) = 10 ∧
    reproduction_interval (Bacteria.mk 0 0 4 100 0 0 0 0) = 40 ∧
    (can_reproduce (Bacteria.mk 0 0 0.5 100 0 0 0 0) 7 = true ↔
      max 1 (pyInt ((Bacteria.mk 0 0 0.5 100 0 0 0 0).reproduction_rate * 10)) ≤
        7 - (Bacteria.mk 0 0 0.5 100 0 0 0 0).last_reproduction) :=
  ⟨rfl,
   can_reproduce_interval_formula.2.1 _ rfl,
   can_reproduce_interval_formula.2.2.1 _ rfl,
   can_reproduce_interval_formula.2.2.2 _ rfl,
   can_reproduce_interval_formula.1 _ 7⟩

/-- The mutable state of `BacteriaSimulation` (streamlit variant; the
tkinter variant's engine fields are the same minus `generation_history`
and `min_bacteria_distance`). -/
structure SimState where
  bacteria_population : List Bacteria
  current_tick : ℤ
  antibiotic_level : ℚ
  initial_population : ℕ
  max_generations : ℕ
  current_max_generation : ℕ
  simulation_ended : Bool
  canvas_width : ℚ
  canvas_height : ℚ
  min_bacteria_distance : ℚ
  population_history : List ℕ
  resistance_history : List ℚ
  tick_history : List ℤ
  generation_history : List ℕ
deriving DecidableEq, Repr

/-- The random tape feeding one simulation step.  `rand` models
`random.random()` and `random.uniform(a, b)` outputs, `randI` models
`randint` outputs, `dir` supplies `(cos θ, sin θ)` for the uniformly drawn
angle θ, and `sample` models `random.sample`. -/
structure Tape where
  rand : ℕ → ℚ
  randI : ℕ → ℤ
  dir : ℕ → ℚ × ℚ
  sample : List Bacteria → ℕ → List Bacteria

/-- `BacteriaSimulation.is_position_valid`: no existing bacterium lies
strictly within `min_bacteria_distance` of `(x, y)` (squared-distance
form of the `sqrt` comparison; the `exclude_id` parameter is never passed
by the engine's callers and is omitted). -/
def is_position_valid (s : SimState) (x y : ℚ) (existing : List Bacteria) : Bool :=
  existing.all fun b =>
    decide (s.min_bacteria_distance ^ 2 ≤ (b.x - x) ^ 2 + (b.y - y) ^ 2)

/-- The first phase of `find_empty_space_near_parent`: up to `fuel`
attempts at radius `20 + 5 * attempt` around the parent, clamped into the
15-unit margin; the first valid point is returned with the cursor. -/
def findNearAux (s : SimState) (px py : ℚ) (existing : List Bacteria)
    (tape : Tape) : ℕ → ℕ → ℕ → Option (ℚ × ℚ) × ℕ
  | _, 0, k => (none, k)
  | attempt, fuel + 1, k =>
    let radius : ℚ := 20 + 5 * attempt
    let d := tape.dir k
    let x := max 15 (min (s.canvas_width - 15) (px + d.1 * radius))
    let y := max 15 (min (s.canvas_height - 15) (py + d.2 * radius))
    if is_position_valid s x y existing then (some (x, y), k + 1)
    else findNearAux s px py existing tape (attempt + 1) fuel (k + 1)

/-- The second phase: up to `fuel` uniform samples anywhere in the arena
margin (the tape directly supplies the two uniform variates). -/
def findAnywhereAux (s : SimState) (existing : List Bacteria)
    (tape : Tape) : ℕ → ℕ → Option (ℚ × ℚ) × ℕ
  | 0, k => (none, k)
  | fuel + 1, k =>
    let x := tape.rand k
    let y := tape.rand (k + 1)
    if is_position_valid s x y existing then (some (x, y), k + 2)
    else findAnywhereAux s existing tape fuel (k + 2)

/-- `BacteriaSimulation.find_empty_space_near_parent`: 50 near-parent
attempts, then 100 arena-wide attempts, then the unconditional last-resort
offset `uniform(-10, 10)` from the parent, clamped into the margin. -/
def find_empty_space_near_parent (s : SimState) (px py : ℚ)
    (existing : List Bacteria) (tape : Tape) (k : ℕ) : (ℚ × ℚ) × ℕ :=
  match findNearAux s px py existing tape 0 50 k with
  | (some p, k1) => (p, k1)
  | (none, k1) =>
    match findAnywhereAux s existing tape 100 k1 with
    | (some p, k2) => (p, k2)
    | (none, k2) =>
      ((max 15 (min (s.canvas_width - 15) (px + tape.rand k2)),
        max 15 (min (s.canvas_height - 15) (py + tape.rand (k2 + 1)))),
       k2 + 2)

/-- One offspring of the binary-fission loop: each trait is the parent's
plus a mutation draw, clamped (`resistance ∈ [0,1]`, `reproduction ∈
[0.5,4]` after adding the `0.3 * resistance` trade-off cost,
`max_age ∈ [60,150]`). -/
def mutatedChild (parent : Bacteria) (current_tick : ℤ)
    (resM repM : ℚ) (ageM : ℤ) (pos : ℚ × ℚ) : Bacteria :=
  let new_resistance := max 0 (min 1 (parent.resistance_rate + resM))
  let resistance_cost := new_resistance * 0.3
  { age := 0
    resistance_rate := new_resistance
    reproduction_rate :=
      max 0.5 (min 4 (parent.reproduction_rate + repM + resistance_cost))
    max_age := max 60 (min 150 (parent.max_age + ageM))
    generation := parent.generation + 1
    last_reproduction := current_tick
    x := pos.1
    y := pos.2 }

/-- `BacteriaSimulation.reproduce`'s binary-fission loop: each offspring
draws its mutations from the tape and is positioned by the spatial placer
over `self.bacteria_population + offspring` — the pre-selection population
(whose in-place age/stamp mutations do not touch the `x`/`y` fields the
placer reads) plus this parent's earlier offspring of this call. -/
def reproduceAux (s : SimState) (parent : Bacteria) (current_tick : ℤ)
    (tape : Tape) : ℕ → List Bacteria → ℕ → List Bacteria × ℕ
  | 0, offspring, k => (offspring, k)
  | n + 1, offspring, k =>
    let pos := find_empty_space_near_parent s parent.x parent.y
      (s.bacteria_population ++ offspring) tape (k + 3)
    let child := mutatedChild parent current_tick
      (tape.rand k) (tape.rand (k + 1)) (tape.randI (k + 2)) pos.1
    reproduceAux s parent current_tick tape n (offspring ++ [child]) pos.2

/-- `BacteriaSimulation.reproduce`: if the parent is eligible, stamp its
`last_reproduction` and produce two mutated offspring; otherwise return the
parent unchanged and no offspring. -/
def reproduce (s : SimState) (parent : Bacteria) (current_tick : ℤ)
    (tape : Tape) (k : ℕ) : Bacteria × List Bacteria × ℕ :=
  if can_reproduce parent current_tick then
    let p := { parent with last_reproduction := current_tick }
    let off := reproduceAux s p current_tick tape 2 [] k
    (p, off.1, off.2)
  else (parent, [], k)

/-- The selection phase of `simulation_step`: each organism ages by one;
it dies if `age ≥ max_age`, otherwise it dies unless the single antibiotic
draw says it survives.  An organism dead by age consumes no draw. -/
def selectionAux (antibiotic_level : ℚ) (tape : Tape) :
    List Bacteria → ℕ → List Bacteria × ℕ
  | [], k => ([], k)
  | b :: rest, k =>
    let aged := { b with age := b.age + 1 }
    if aged.max_age ≤ aged.age then selectionAux antibiotic_level tape rest k
    else
      let outcome := survive_antibiotic_exposure aged antibiotic_level tape.rand k
      let tail := selectionAux antibiotic_level tape rest outcome.2
      if outcome.1 then (aged :: tail.1, tail.2) else tail

/-- The reproduction phase: fold `reproduce` over the survivors, keeping
the (possibly restamped) parents in order and concatenating all offspring
in order. -/
def reproductionAux (s : SimState) (current_tick : ℤ) (tape : Tape) :
    List Bacteria → ℕ → List Bacteria × List Bacteria × ℕ
  | [], k => ([], [], k)
  | b :: rest, k =>
    let r := reproduce s b current_tick tape k
    let t := reproductionAux s current_tick tape rest r.2.2
    (r.1 :: t.1, r.2.1 ++ t.2.1, t.2.2)

/-- The in-place `sort(key=resistance_rate, reverse=True)`: a stable sort
descending by resistance. -/
def sortDescByResistance (l : List Bacteria) : List Bacteria :=
  l.mergeSort fun a b => b.resistance_rate ≤ a.resistance_rate

/-- The overflow-capping policy: above 800 organisms, keep the 400 most
resistant of the descending sort plus a without-replacement sample of
`min(200, n - 400)` from the remainder. -/
def capPopulation (tape : Tape) (pop : List Bacteria) : List Bacteria :=
  if 800 < pop.length then
    let sorted := sortDescByResistance pop
    sorted.take 400 ++ tape.sample (sorted.drop 400) (min 200 (pop.length - 400))
  else pop

/-- Python `l[-200:]`. -/
def lastN {α : Type} (n : ℕ) (l : List α) : List α :=
  l.drop (l.length - n)

/-- The history-trimming step: after appending, if the tick history
exceeds 200 samples, every sequence is cut to its last 200 entries. -/
def updateHistories (ph : List ℕ) (rh : List ℚ) (th : List ℤ) (gh : List ℕ) :
    List ℕ × List ℚ × List ℤ × List ℕ :=
  if 200 < th.length then (lastN 200 ph, lastN 200 rh, lastN 200 th, lastN 200 gh)
  else (ph, rh, th, gh)

/-- The code's `max(b.generation for b in pop)` over a population known to
be non-empty: a left fold of `max` seeded with 0 (equal to the maximum,
since generations are non-negative). -/
def populationMaxGeneration (pop : List Bacteria) : ℕ :=
  pop.foldl (fun m b => max m b.generation) 0

/-- The average resistance appended to the history: `sum / len` for a
non-empty population, 0 otherwise. -/
def populationAvgResistance (pop : List Bacteria) : ℚ :=
  if pop = [] then 0 else (pop.map Bacteria.resistance_rate).sum / pop.length

/-- `BacteriaSimulation.simulation_step`: advance the tick, run selection
then reproduction, concatenate survivors and offspring, cap the overflow,
refresh `current_max_generation` only when the population is non-empty,
and append/trim the four history sequences.  The `simulation_ended` flag is
not consulted or set here (the callers manage it). -/
def simulation_step (s : SimState) (tape : Tape) : SimState :=
  let tick := s.current_tick + 1
  let sel := selectionAux s.antibiotic_level tape s.bacteria_population 0
  let rep := reproductionAux s tick tape sel.1 sel.2
  let pop := capPopulation tape (rep.1 ++ rep.2.1)
  let maxGen := if pop = [] then s.current_max_generation
    else populationMaxGeneration pop
  let hs := updateHistories
    (s.population_history ++ [pop.length])
    (s.resistance_history ++ [populationAvgResistance pop])
    (s.tick_history ++ [tick])
    (s.generation_history ++ [maxGen])
  { s with
    bacteria_population := pop
    current_tick := tick
    current_max_generation := maxGen
    population_history := hs.1
    resistance_history := hs.2.1
    tick_history := hs.2.2.1
    generation_history := hs.2.2.2 }

/-- The manual-step handler of the streamlit sidebar: it calls
`simulation_step` only when the `simulation_ended` flag is false (the
tkinter variant's `run_simulation` guards identically). -/
def manual_step (s : SimState) (tape : Tape) : SimState :=
  if s.simulation_ended then s else simulation_step s tape

/-- The random tape feeding `initialize_population`, indexed by founder:
per-founder placement attempts `(posX i j, posY i j)` and the trait draws
consumed once a founder is placed. -/
structure InitTape where
  posX : ℕ → ℕ → ℚ
  posY : ℕ → ℕ → ℚ
  ageDraw : ℕ → ℤ
  resDraw : ℕ → ℚ
  repDraw : ℕ → ℚ
  maxAgeDraw : ℕ → ℤ

/-- One founder's placement loop: up to `fuel` attempts (the code uses
100); the first position valid against the founders placed so far yields a
generation-0 bacterium with the founder's trait draws
(`last_reproduction` keeps its dataclass default 0). -/
def initAttempts (s : SimState) (it : InitTape) (i : ℕ)
    (acc : List Bacteria) : ℕ → ℕ → Option Bacteria
  | _, 0 => none
  | j, fuel + 1 =>
    if is_position_valid s (it.posX i j) (it.posY i j) acc then
      some
        { age := it.ageDraw i
          resistance_rate := it.resDraw i
          reproduction_rate := it.repDraw i
          max_age := it.maxAgeDraw i
          generation := 0
          last_reproduction := 0
          x := it.posX i j
          y := it.posY i j }
    else initAttempts s it i acc (j + 1) fuel

/-- The founder loop of `initialize_population`: founders whose 100
attempts all collide are silently skipped. -/
def initLoop (s : SimState) (it : InitTape) : ℕ → ℕ → List Bacteria → List Bacteria
  | _, 0, acc => acc
  | i, n + 1, acc =>
    match initAttempts s it i acc 0 100 with
    | some b => initLoop s it (i + 1) n (acc ++ [b])
    | none => initLoop s it (i + 1) n acc

/-- `BacteriaSimulation.initialize_population`: reseed the population and
reset the clock, generation tracker, ended flag and histories. -/
def initialize_population (s : SimState) (it : InitTape) (population_size : ℕ) :
    SimState :=
  { s with
    bacteria_population := initLoop s it 0 population_size []
    initial_population := population_size
    current_tick := 0
    current_max_generation := 0
    simulation_ended := false
    population_history := []
    resistance_history := []
    tick_history := []
    generation_history := [] }

/-- The record returned by `BacteriaSimulation.get_statistics`. -/
structure Statistics where
  population : ℕ
  avg_resistance : ℚ
  avg_reproduction : ℚ
  resistance_range : ℚ × ℚ
  high_resistance_count : ℕ
  medium_resistance_count : ℕ
  low_resistance_count : ℕ
  very_old_count : ℕ
  avg_age : ℚ
deriving DecidableEq, Repr

/-- `BacteriaSimulation.get_statistics`: all-zero defaults on the empty
population; otherwise means over the population, the min/max resistance
(Python's `min`/`max` of a non-empty list, i.e. folds from the first
element), the three resistance bands (low as the complement count, as in
the code) and the very-old count. -/
def get_statistics : List Bacteria → Statistics
  | [] =>
    { population := 0
      avg_resistance := 0
      avg_reproduction := 0
      resistance_range := (0, 0)
      high_resistance_count := 0
      medium_resistance_count := 0
      low_resistance_count := 0
      very_old_count := 0
      avg_age := 0 }
  | b :: rest =>
    let pop := b :: rest
    let n : ℚ := pop.length
    let resistances := pop.map Bacteria.resistance_rate
    let high := resistances.countP fun r => decide (0.7 < r)
    let med := resistances.countP fun r => decide (0.3 ≤ r ∧ r ≤ 0.7)
    { population := pop.length
      avg_resistance := resistances.sum / n
      avg_reproduction := (pop.map Bacteria.reproduction_rate).sum / n
      resistance_range :=
        (rest.foldl (fun m c => min m c.resistance_rate) b.resistance_rate,
         rest.foldl (fun m c => max m c.resistance_rate) b.resistance_rate)
      high_resistance_count := high
      medium_resistance_count := med
      low_resistance_count := pop.length - high - med
      very_old_count := pop.countP is_very_old
      avg_age := (pop.map fun c => (c.age : ℚ)).sum / n }

/-- The trait ranges of the data-model invariant. -/
def traitBounds (b : Bacteria) : Prop :=
  0 ≤ b.resistance_rate ∧ b.resistance_rate ≤ 1 ∧
  0.5 ≤ b.reproduction_rate ∧ b.reproduction_rate ≤ 4 ∧
  60 ≤ b.max_age ∧ b.max_age ≤ 150

instance (b : Bacteria) : Decidable (traitBounds b) := by
  unfold traitBounds; infer_instance

/-- Every organism of a list satisfies the trait ranges. -/
def popBounded (l : List Bacteria) : Prop :=
  ∀ b ∈ l, traitBounds b

/-- Every organism of a list satisfies the full live-population invariant:
below its own maximum age, and inside the trait ranges. -/
def popLive (l : List Bacteria) : Prop :=
  ∀ b ∈ l, b.age < b.max_age ∧ traitBounds b

/-- The tape's `sample` only returns elements of its input (true of
`random.sample`, which draws without replacement from its population). -/
def SampleSub (tape : Tape) : Prop :=
  ∀ (l : List Bacteria) (k : ℕ), ∀ b ∈ tape.sample l k, b ∈ l

/-- The tape's `sample` returns exactly `min k n` elements from an
`n`-element population (`random.sample(pop, k)` requires `k ≤ n` and
returns `k` elements; the engine only calls it with `k ≤ n`). -/
def SampleLen (tape : Tape) : Prop :=
  ∀ (l : List Bacteria) (k : ℕ), (tape.sample l k).length = min k l.length

/-- The seeding tape draws inside the ranges of `initialize_population`:
`age ∈ randint(0,15)`, `resistance ∈ U(0.05,0.25)`,
`reproduction ∈ U(0.8,1.5)`, `max_age ∈ randint(85,120)`. -/
def InitTapeOK (it : InitTape) : Prop :=
  ∀ i : ℕ,
    (0 ≤ it.ageDraw i ∧ it.ageDraw i ≤ 15) ∧
    (0.05 ≤ it.resDraw i ∧ it.resDraw i ≤ 0.25) ∧
    (0.8 ≤ it.repDraw i ∧ it.repDraw i ≤ 1.5) ∧
    (85 ≤ it.maxAgeDraw i ∧ it.maxAgeDraw i ≤ 120)

/-- The four history sequences of a state have equal lengths. -/
def historiesAligned (s : SimState) : Prop :=
  s.population_history.length = s.tick_history.length ∧
  s.resistance_history.length = s.tick_history.length ∧
  s.generation_history.length = s.tick_history.length

/-- A deterministic tape: all uniform draws 0, all integer draws 0,
all placement directions pointing along the positive x axis, and
`sample` taking the first `k` elements (a valid without-replacement
sample). -/
def tapeZero : Tape :=
  { rand := fun _ => 0
    randI := fun _ => 0
    dir := fun _ => (1, 0)
    sample := fun l k => l.take k }

/-- The state built by `BacteriaSimulation.__init__`: empty population,
tick 0, antibiotic 0.3, canvas 800 x 400, distance threshold 8, empty
histories. -/
def baseState : SimState :=
  { bacteria_population := []
    current_tick := 0
    antibiotic_level := 0.3
    initial_population := 50
    max_generations := 20
    current_max_generation := 0
    simulation_ended := false
    canvas_width := 800
    canvas_height := 400
    min_bacteria_distance := 8
    population_history := []
    resistance_history := []
    tick_history := []
    generation_history := [] }

/-- A state whose `simulation_ended` flag is set. -/
def endedState : SimState :=
  { baseState with simulation_ended := true }

/-- An organism one tick from dying of old age, of generation 3. -/
def agedOut : Bacteria :=
  { age := 59
    resistance_rate := 0.2
    reproduction_rate := 1
    max_age := 60
    generation := 3
    last_reproduction := 0
    x := 100
    y := 100 }

/-- A state about to go extinct while `current_max_generation = 3`. -/
def extinctionState : SimState :=
  { baseState with
    bacteria_population := [agedOut]
    current_max_generation := 3 }

/-- A long-lived, reproduction-ready organism at `(100, 200)`. -/
def parentA : Bacteria :=
  { age := 5
    resistance_rate := 0.2
    reproduction_rate := 1
    max_age := 100
    generation := 0
    last_reproduction := -100
    x := 100
    y := 200 }

/-- The same organism two units to the right. -/
def parentB : Bacteria :=
  { parentA with x := 102 }

/-- Two nearby parents, both ready to reproduce, with no antibiotic. -/
def crowdedState : SimState :=
  { baseState with
    bacteria_population := [parentA, parentB]
    antibiotic_level := 0 }

/-- A single quiet organism (not yet eligible to reproduce) under no
antibiotic. -/
def calmState : SimState :=
  { baseState with
    bacteria_population := [{ parentA with last_reproduction := 0 }]
    antibiotic_level := 0 }

/-- A constant seeding tape: every placement attempt at `(100, 100)`,
every trait draw fixed inside its legal range. -/
def itConst : InitTape :=
  { posX := fun _ _ => 100
    posY := fun _ _ => 100
    ageDraw := fun _ => 5
    resDraw := fun _ => 0.1
    repDraw := fun _ => 1
    maxAgeDraw := fun _ => 100 }

/-- C8: on the empty population, `get_statistics` returns the all-zero /
empty-range record (the query is total: no error path). -/
theorem statistics_empty_population_defaults :
    get_statistics [] =
      { population := 0
        avg_resistance := 0
        avg_reproduction := 0
        resistance_range := (0, 0)
        high_resistance_count := 0
        medium_resistance_count := 0
        low_resistance_count := 0
        very_old_count := 0
        avg_age := 0 } := rfl

/-- C5 counterexample: in a state whose `simulation_ended` flag is true,
calling `simulation_step` still advances `current_tick` — the step
operation itself does not consult the flag, so it is not a no-op. -/
theorem step_when_ended_changes_tick :
    endedState.simulation_ended = true ∧
    (simulation_step endedState tapeZero).current_tick ≠ endedState.current_tick := by
  refine ⟨rfl, ?_⟩
  decide

/-- C5 amended: the ended-state no-op holds one level up, at the callers:
the manual-step handler (and the tkinter `run_simulation` loop) call
`simulation_step` only when `simulation_ended` is false, so the guarded
step leaves the state unchanged once ended. -/
theorem guarded_step_noop_when_ended (s : SimState) (tape : Tape)
    (h : s.simulation_ended = true) : manual_step s tape = s := by
  simp [manual_step, h]

/-- Witness for the amended C5 at a concrete ended state. -/
theorem guarded_step_noop_witness :
    endedState.simulation_ended = true ∧ manual_step endedState tapeZero = endedState :=
  ⟨rfl, guarded_step_noop_when_ended endedState tapeZero rfl⟩

/-- C9 counterexample: a step that drives the population extinct leaves
`current_max_generation` at its previous value 3 instead of recomputing it
to 0 — the code updates the tracker only under `if self.bacteria_population`. -/
theorem extinction_keeps_old_max_generation :
    (simulation_step extinctionState tapeZero).bacteria_population = [] ∧
    (simulation_step extinctionState tapeZero).current_max_generation ≠ 0 := by
  constructor
  · decide
  · decide

set_option maxHeartbeats 4000000 in
/-- C7 counterexample: in a tick where both nearby parents reproduce, the
first offspring of the second parent is accepted at `(122, 200)` although
the first parent's first offspring already sits at `(120, 200)` — only 2
units away, far below the 8-unit threshold.  Same-tick offspring of other
parents are not part of the occupied set the placer checks. -/
theorem cross_parent_offspring_too_close :
    ((simulation_step crowdedState tapeZero).bacteria_population.map fun b => (b.x, b.y)) =
      [(100, 200), (102, 200), (120, 200), (130, 200), (122, 200), (132, 200)] ∧
    ((simulation_step crowdedState tapeZero).bacteria_population.map Bacteria.age) =
      [6, 6, 0, 0, 0, 0] ∧
    ((122 : ℚ) - 120) ^ 2 + ((200 : ℚ) - 200) ^ 2 <
      crowdedState.min_bacteria_distance ^ 2 := by
  refine ⟨?_, ?_, ?_⟩ <;>
    norm_num [simulation_step, selectionAux, reproductionAux, reproduce, reproduceAux,
      mutatedChild, find_empty_space_near_parent, findNearAux, findAnywhereAux,
      is_position_valid, can_reproduce, reproduction_interval, pyInt,
      survive_antibiotic_exposure, survivalChance, capPopulation, sortDescByResistance,
      populationMaxGeneration, populationAvgResistance, updateHistories, lastN,
      crowdedState, baseState, parentA, parentB, tapeZero]

/-- Every mutated child satisfies the live-organism invariant outright:
its age is 0, and every trait is clamped into its range. -/
theorem mutatedChild_live (parent : Bacteria) (current_tick : ℤ)
    (resM repM : ℚ) (ageM : ℤ) (pos : ℚ × ℚ) :
    (mutatedChild parent current_tick resM repM ageM pos).age <
      (mutatedChild parent current_tick resM repM ageM pos).max_age ∧
    traitBounds (mutatedChild parent current_tick resM repM ageM pos) := by
  unfold mutatedChild traitBounds
  exact ⟨lt_of_lt_of_le (by norm_num) (le_max_left _ _),
    le_max_left _ _, max_le (by norm_num) (min_le_left _ _),
    le_max_left _ _, max_le (by norm_num) (min_le_left _ _),
    le_max_left _ _, max_le (by norm_num) (min_le_left _ _)⟩

/-- Selection only keeps aged copies of organisms that passed the age
check, so its survivors satisfy the live invariant whenever the input
traits are in range. -/
theorem selectionAux_live (antibiotic_level : ℚ) (tape : Tape) :
    ∀ (pop : List Bacteria) (k : ℕ), popBounded pop →
      popLive (selectionAux antibiotic_level tape pop k).1
  | [], _, _ => by simp [selectionAux, popLive]
  | b :: rest, k, hp => by
    have hb : traitBounds b := hp b (List.mem_cons_self b rest)
    have hrest : popBounded rest := fun c hc => hp c (List.mem_cons_of_mem b hc)
    simp only [selectionAux]
    split
    · exact selectionAux_live antibiotic_level tape rest k hrest
    · rename_i hage
      split
      · intro c hc
        rcases List.mem_cons.1 hc with rfl | hc
        · exact ⟨lt_of_not_le hage, hb⟩
        · exact selectionAux_live antibiotic_level tape rest _ hrest c hc
      · exact selectionAux_live antibiotic_level tape rest _ hrest

/-- The binary-fission loop only appends mutated children, so it preserves
the live invariant of the accumulated offspring list. -/
theorem reproduceAux_live (s : SimState) (parent : Bacteria) (current_tick : ℤ)
    (tape : Tape) :
    ∀ (n : ℕ) (offspring : List Bacteria) (k : ℕ), popLive offspring →
      popLive (reproduceAux s parent current_tick tape n offspring k).1
  | 0, offspring, k, h => by simpa [reproduceAux] using h
  | n + 1, offspring, k, h => by
    simp only [reproduceAux]
    apply reproduceAux_live
    intro c hc
    rcases List.mem_append.1 hc with hc | hc
    · exact h c hc
    · rcases List.mem_singleton.1 hc with rfl
      exact mutatedChild_live parent current_tick _ _ _ _

/-- `reproduce` returns a parent with unchanged age and traits, and
offspring that satisfy the live invariant. -/
theorem reproduce_live (s : SimState) (b : Bacteria) (current_tick : ℤ)
    (tape : Tape) (k : ℕ) (hb : b.age < b.max_age ∧ traitBounds b) :
    ((reproduce s b current_tick tape k).1.age <
        (reproduce s b current_tick tape k).1.max_age ∧
      traitBounds (reproduce s b current_tick tape k).1) ∧
    popLive (reproduce s b current_tick tape k).2.1 := by
  unfold reproduce
  split
  · exact ⟨hb, reproduceAux_live s _ current_tick tape 2 [] k (by simp [popLive])⟩
  · exact ⟨hb, by simp [popLive]⟩

/-- The reproduction phase keeps live parents live and produces live
offspring. -/
theorem reproductionAux_live (s : SimState) (current_tick : ℤ) (tape : Tape) :
    ∀ (pop : List Bacteria) (k : ℕ), popLive pop →
      popLive (reproductionAux s current_tick tape pop k).1 ∧
      popLive (reproductionAux s current_tick tape pop k).2.1
  | [], _, _ => by simp [reproductionAux, popLive]
  | b :: rest, k, hp => by
    have hb := hp b (List.mem_cons_self b rest)
    have hrest : popLive rest := fun c hc => hp c (List.mem_cons_of_mem b hc)
    have hr := reproduce_live s b current_tick tape k hb
    have ht := reproductionAux_live s current_tick tape rest
      (reproduce s b current_tick tape k).2.2 hrest
    simp only [reproductionAux]
    constructor
    · intro c hc
      rcases List.mem_cons.1 hc with rfl | hc
      · exact hr.1
      · exact ht.1 c hc
    · intro c hc
      rcases List.mem_append.1 hc with hc | hc
      · exact hr.2 c hc
      · exact ht.2 c hc

/-- Capping only ever discards organisms: every survivor of
`capPopulation` was already in the population (given that `sample` draws
from its input). -/
theorem capPopulation_subset (tape : Tape) (hs : SampleSub tape)
    (pop : List Bacteria) : ∀ b ∈ capPopulation tape pop, b ∈ pop := by
  intro b hb
  unfold capPopulation at hb
  split at hb
  · rcases List.mem_append.1 hb with hb | hb
    · exact ((List.mergeSort_perm pop _).mem_iff).1 (List.mem_of_mem_take hb)
    · exact ((List.mergeSort_perm pop _).mem_iff).1
        (List.mem_of_mem_drop (hs _ _ b hb))
  · exact hb

/-- The population field after a step is the capped concatenation of the
restamped survivors and the new offspring. -/
theorem step_population_eq (s : SimState) (tape : Tape) :
    (simulation_step s tape).bacteria_population =
      capPopulation tape
        ((reproductionAux s (s.current_tick + 1) tape
            (selectionAux s.antibiotic_level tape s.bacteria_population 0).1
            (selectionAux s.antibiotic_level tape s.bacteria_population 0).2).1 ++
          (reproductionAux s (s.current_tick + 1) tape
            (selectionAux s.antibiotic_level tape s.bacteria_population 0).1
            (selectionAux s.antibiotic_level tape s.bacteria_population 0).2).2.1) := rfl

/-- A founder returned by the placement-attempt loop carries exactly the
founder's trait draws (age, resistance, reproduction, max age), age 0
generation and `last_reproduction = 0`. -/
theorem initAttempts_traits (s : SimState) (it : InitTape) (i : ℕ)
    (acc : List Bacteria) :
    ∀ (j fuel : ℕ) (b : Bacteria), initAttempts s it i acc j fuel = some b →
      b.age = it.ageDraw i ∧ b.resistance_rate = it.resDraw i ∧
      b.reproduction_rate = it.repDraw i ∧ b.max_age = it.maxAgeDraw i
  | j, 0, b => by simp [initAttempts]
  | j, fuel + 1, b => by
    simp only [initAttempts]
    split
    · intro h
      rcases Option.some.injEq _ _ ▸ h with rfl
      exact ⟨rfl, rfl, rfl, rfl⟩
    · exact initAttempts_traits s it i acc (j + 1) fuel b

/-- The founder loop only appends in-range founders when the tape draws
inside the legal seeding ranges. -/
theorem initLoop_live (s : SimState) (it : InitTape) (hit : InitTapeOK it) :
    ∀ (n i : ℕ) (acc : List Bacteria), popLive acc →
      popLive (initLoop s it i n acc)
  | 0, i, acc, h => by simpa [initLoop] using h
  | n + 1, i, acc, h => by
    simp only [initLoop]
    split
    · rename_i b hb
      apply initLoop_live s it hit n
      intro c hc
      rcases List.mem_append.1 hc with hc | hc
      · exact h c hc
      · rcases List.mem_singleton.1 hc with rfl
        obtain ⟨ha, hres, hrep, hmax⟩ := initAttempts_traits s it i acc 0 100 c hb
        obtain ⟨⟨ha0, ha1⟩, ⟨hr0, hr1⟩, ⟨hp0, hp1⟩, ⟨hm0, hm1⟩⟩ := hit i
        refine ⟨?_, ?_, ?_, ?_, ?_, ?_, ?_⟩
        · rw [ha, hmax]; omega
        · rw [hres]; linarith
        · rw [hres]; linarith
        · rw [hrep]; linarith
        · rw [hrep]; linarith
        · rw [hmax]; omega
        · rw [hmax]; omega
    · exact initLoop_live s it hit n (i + 1) acc h

/-- C2: the seeding draws land inside the clamp ranges, and a simulation
step preserves them: after any `simulation_step` from a population whose
traits are in range, every live organism satisfies `age < maxAge`,
`0 ≤ resistanceRate ≤ 1`, `0.5 ≤ reproductionRate ≤ 4` and
`60 ≤ maxAge ≤ 150`. -/
theorem step_preserves_organism_bounds :
    (∀ (s : SimState) (it : InitTape) (n : ℕ), InitTapeOK it →
      popLive (initialize_population s it n).bacteria_population) ∧
    (∀ (s : SimState) (tape : Tape), SampleSub tape →
      popBounded s.bacteria_population →
      popLive (simulation_step s tape).bacteria_population) := by
  constructor
  · intro s it n hit
    exact initLoop_live s it hit n 0 [] (by simp [popLive])
  · intro s tape hs hp
    rw [step_population_eq]
    intro b hb
    have hb1 := capPopulation_subset tape hs _ b hb
    have hsel := selectionAux_live s.antibiotic_level tape s.bacteria_population 0 hp
    have hrep := reproductionAux_live s (s.current_tick + 1) tape
      (selectionAux s.antibiotic_level tape s.bacteria_population 0).1
      (selectionAux s.antibiotic_level tape s.bacteria_population 0).2 hsel
    rcases List.mem_append.1 hb1 with hb1 | hb1
    · exact hrep.1 b hb1
    · exact hrep.2 b hb1

/-- Witness for C2: the hypotheses hold at the constant seeding tape, the
take-prefix sampler and a concrete one-organism state, and the conclusions
follow by the theorem. -/
theorem step_preserves_organism_bounds_witness :
    InitTapeOK itConst ∧
    popLive (initialize_population baseState itConst 2).bacteria_population ∧
    SampleSub tapeZero ∧
    popBounded calmState.bacteria_population ∧
    popLive (simulation_step calmState tapeZero).bacteria_population := by
  have hit : InitTapeOK itConst := by
    intro i
    norm_num [itConst]
  have hs : SampleSub tapeZero := by
    intro l k b hb
    exact List.mem_of_mem_take hb
  have hp : popBounded calmState.bacteria_population := by
    intro b hb
    rcases List.mem_singleton.1 hb with rfl
    norm_num [traitBounds, parentA]
  exact ⟨hit, step_preserves_organism_bounds.1 baseState itConst 2 hit,
    hs, hp, step_preserves_organism_bounds.2 calmState tapeZero hs hp⟩

/-- The founder loop adds at most one organism per requested founder. -/
theorem initLoop_length (s : SimState) (it : InitTape) :
    ∀ (n i : ℕ) (acc : List Bacteria),
      (initLoop s it i n acc).length ≤ acc.length + n
  | 0, i, acc => by simp [initLoop]
  | n + 1, i, acc => by
    simp only [initLoop]
    split
    · calc (initLoop s it (i + 1) n (acc ++ _)).length
          ≤ (acc ++ _).length + n := initLoop_length s it n (i + 1) _
        _ = acc.length + (n + 1) := by simp [List.length_append]; omega
    · exact le_trans (initLoop_length s it n (i + 1) acc) (by omega)

/-- C10: seeding places at most the requested number of founders, and can
place strictly fewer — a founder whose 100 placement attempts all collide
is silently skipped. -/
theorem seeding_size_at_most_requested :
    (∀ (s : SimState) (it : InitTape) (n : ℕ),
      (initialize_population s it n).bacteria_population.length ≤ n) ∧
    (∃ (s : SimState) (it : InitTape) (n : ℕ),
      (initialize_population s it n).bacteria_population.length < n) := by
  constructor
  · intro s it n
    simpa using initLoop_length s it n 0 []
  · refine ⟨baseState, itConst, 2, ?_⟩
    norm_num [initialize_population, initLoop, initAttempts, is_position_valid,
      itConst, baseState]

/-- C3: whenever the post-reproduction population exceeds 800, capping
replaces it by the 400 most resistant of the descending sort plus a
200-element sample of the remainder, giving exactly 600 organisms; in
every case the capped population has at most 800 organisms. -/
theorem capping_structure_and_bound (tape : Tape) (hlen : SampleLen tape)
    (pop : List Bacteria) :
    (capPopulation tape pop).length ≤ 800 ∧
    (800 < pop.length →
      capPopulation tape pop =
        (sortDescByResistance pop).take 400 ++
          tape.sample ((sortDescByResistance pop).drop 400) 200 ∧
      (capPopulation tape pop).length = 600) := by
  have hsort : (sortDescByResistance pop).length = pop.length :=
    (List.mergeSort_perm pop _).length_eq
  by_cases h : 800 < pop.length
  · have hmin : min 200 (pop.length - 400) = 200 := by omega
    have hcap : capPopulation tape pop =
        (sortDescByResistance pop).take 400 ++
          tape.sample ((sortDescByResistance pop).drop 400) 200 := by
      simp only [capPopulation, if_pos h, hmin]
    have hlen600 : (capPopulation tape pop).length = 600 := by
      rw [hcap, List.length_append, List.length_take, hlen, List.length_drop, hsort]
      omega
    exact ⟨by omega, fun _ => ⟨hcap, hlen600⟩⟩
  · have hcap : capPopulation tape pop = pop := by simp [capPopulation, h]
    rw [hcap]
    exact ⟨by omega, fun hc => absurd hc h⟩

/-- Witness for C3: the take-prefix sampler satisfies the length
specification, and the capped empty population is within the bound. -/
theorem capping_structure_and_bound_witness :
    SampleLen tapeZero ∧ (capPopulation tapeZero []).length ≤ 800 := by
  have hlen : SampleLen tapeZero := by
    intro l k
    simp [tapeZero]
  exact ⟨hlen, (capping_structure_and_bound tapeZero hlen []).1⟩

/-- The length of a `[-n:]` slice. -/
theorem lastN_length {α : Type} (n : ℕ) (l : List α) :
    (lastN n l).length = min n l.length := by
  simp [lastN]
  omega

/-- After trimming, all four history sequences have length
`min (input tick length) 200`, provided the inputs are aligned. -/
theorem updateHistories_length (ph : List ℕ) (rh : List ℚ) (th : List ℤ)
    (gh : List ℕ) (h1 : ph.length = th.length) (h2 : rh.length = th.length)
    (h3 : gh.length = th.length) :
    (updateHistories ph rh th gh).1.length = min th.length 200 ∧
    (updateHistories ph rh th gh).2.1.length = min th.length 200 ∧
    (updateHistories ph rh th gh).2.2.1.length = min th.length 200 ∧
    (updateHistories ph rh th gh).2.2.2.length = min th.length 200 := by
  unfold updateHistories
  split <;> rename_i h <;>
    refine ⟨?_, ?_, ?_, ?_⟩ <;> simp [lastN_length, h1, h2, h3] <;> omega

/-- The history fields after a step are the trimmed one-sample extensions
of the previous histories. -/
theorem step_histories_spec (s : SimState) (tape : Tape) :
    ∃ (a : ℕ) (b : ℚ) (c : ℤ) (d : ℕ),
      (simulation_step s tape).population_history =
        (updateHistories (s.population_history ++ [a]) (s.resistance_history ++ [b])
          (s.tick_history ++ [c]) (s.generation_history ++ [d])).1 ∧
      (simulation_step s tape).resistance_history =
        (updateHistories (s.population_history ++ [a]) (s.resistance_history ++ [b])
          (s.tick_history ++ [c]) (s.generation_history ++ [d])).2.1 ∧
      (simulation_step s tape).tick_history =
        (updateHistories (s.population_history ++ [a]) (s.resistance_history ++ [b])
          (s.tick_history ++ [c]) (s.generation_history ++ [d])).2.2.1 ∧
      (simulation_step s tape).generation_history =
        (updateHistories (s.population_history ++ [a]) (s.resistance_history ++ [b])
          (s.tick_history ++ [c]) (s.generation_history ++ [d])).2.2.2 :=
  ⟨_, _, _, _, rfl, rfl, rfl, rfl⟩

/-- C6: a step keeps the four history sequences index-aligned, their
common length never exceeds the 200-sample retention window, and the
post-step length is `min (previous length + 1) 200` (the lockstep
eviction of the oldest samples). -/
theorem histories_aligned_and_bounded_after_step (s : SimState) (tape : Tape)
    (h : historiesAligned s) :
    historiesAligned (simulation_step s tape) ∧
    (simulation_step s tape).tick_history.length ≤ 200 ∧
    (simulation_step s tape).tick_history.length =
      min (s.tick_history.length + 1) 200 := by
  obtain ⟨h1, h2, h3⟩ := h
  obtain ⟨a, b, c, d, e1, e2, e3, e4⟩ := step_histories_spec s tape
  obtain ⟨u1, u2, u3, u4⟩ := updateHistories_length
    (s.population_history ++ [a]) (s.resistance_history ++ [b])
    (s.tick_history ++ [c]) (s.generation_history ++ [d])
    (by simp [h1]) (by simp [h2]) (by simp [h3])
  simp only [List.length_append, List.length_singleton] at u1 u2 u3 u4
  rw [historiesAligned, e1, e2, e3, e4]
  refine ⟨⟨?_, ?_, ?_⟩, ?_, ?_⟩ <;> omega

/-- Witness for C6 at the freshly constructed state (empty, aligned
histories). -/
theorem histories_aligned_witness :
    historiesAligned baseState ∧
    historiesAligned (simulation_step baseState tapeZero) ∧
    (simulation_step baseState tapeZero).tick_history.length ≤ 200 :=
  ⟨⟨rfl, rfl, rfl⟩,
   (histories_aligned_and_bounded_after_step baseState tapeZero ⟨rfl, rfl, rfl⟩).1,
   (histories_aligned_and_bounded_after_step baseState tapeZero ⟨rfl, rfl, rfl⟩).2.1⟩

/-- The generation fold bounds every element, dominates its seed, and is
either the seed or attained by some element. -/
theorem foldMax_spec :
    ∀ (l : List Bacteria) (a : ℕ),
      (∀ b ∈ l, b.generation ≤ l.foldl (fun m c => max m c.generation) a) ∧
      a ≤ l.foldl (fun m c => max m c.generation) a ∧
      (l.foldl (fun m c => max m c.generation) a = a ∨
        ∃ b ∈ l, l.foldl (fun m c => max m c.generation) a = b.generation)
  | [], a => by simp
  | b :: l, a => by
    have ih := foldMax_spec l (max a b.generation)
    simp only [List.foldl_cons]
    refine ⟨?_, ?_, ?_⟩
    · intro c hc
      rcases List.mem_cons.1 hc with rfl | hc
      · exact le_trans (le_max_right a c.generation) ih.2.1
      · exact ih.1 c hc
    · exact le_trans (le_max_left a b.generation) ih.2.1
    · rcases ih.2.2 with h | ⟨c, hc, h⟩
      · rcases max_choice a b.generation with hm | hm
        · exact Or.inl (h.trans hm)
        · exact Or.inr ⟨b, List.mem_cons_self b l, h.trans hm⟩
      · exact Or.inr ⟨c, List.mem_cons_of_mem b hc, h⟩

/-- The generation tracker after a step is the fold over the new
population when it is non-empty, and the untouched previous value when it
is empty. -/
theorem step_maxgen_eq (s : SimState) (tape : Tape) :
    (simulation_step s tape).current_max_generation =
      if (simulation_step s tape).bacteria_population = [] then
        s.current_max_generation
      else populationMaxGeneration (simulation_step s tape).bacteria_population := rfl

/-- C9 amended: after every step, `current_max_generation` is the maximum
generation over the live population whenever that population is
non-empty; when the population is empty it keeps its previous value (it
is not recomputed to 0). -/
theorem max_generation_tracks_population (s : SimState) (tape : Tape) :
    ((simulation_step s tape).bacteria_population ≠ [] →
      (∀ b ∈ (simulation_step s tape).bacteria_population,
        b.generation ≤ (simulation_step s tape).current_max_generation) ∧
      ∃ b ∈ (simulation_step s tape).bacteria_population,
        (simulation_step s tape).current_max_generation = b.generation) ∧
    ((simulation_step s tape).bacteria_population = [] →
      (simulation_step s tape).current_max_generation =
        s.current_max_generation) := by
  rw [step_maxgen_eq]
  constructor
  · intro hne
    rw [if_neg hne]
    have hf := foldMax_spec (simulation_step s tape).bacteria_population 0
    simp only [populationMaxGeneration]
    refine ⟨hf.1, ?_⟩
    rcases hf.2.2 with h0 | h
    · rcases List.exists_mem_of_ne_nil _ hne with ⟨c, hc⟩
      have hcle := hf.1 c hc
      exact ⟨c, hc, by omega⟩
    · exact h
  · intro he
    rw [if_pos he]

/-- Witness for the amended C9 at the extinction state: the stepped
population is empty and the tracker keeps its previous value. -/
theorem max_generation_tracks_population_witness :
    (simulation_step extinctionState tapeZero).bacteria_population = [] ∧
    (simulation_step extinctionState tapeZero).current_max_generation =
      extinctionState.current_max_generation :=
  ⟨by decide,
   (max_generation_tracks_population extinctionState tapeZero).2 (by decide)⟩

/-- A point accepted by the near-parent phase passed the distance check
against the occupied list. -/
theorem findNearAux_valid (s : SimState) (px py : ℚ) (existing : List Bacteria)
    (tape : Tape) :
    ∀ (attempt fuel k : ℕ) (p : ℚ × ℚ) (k1 : ℕ),
      findNearAux s px py existing tape attempt fuel k = (some p, k1) →
      is_position_valid s p.1 p.2 existing = true
  | attempt, 0, k, p, k1 => by simp [findNearAux]
  | attempt, fuel + 1, k, p, k1 => by
    intro h
    simp only [findNearAux] at h
    split at h
    · rename_i hvalid
      simp only [Prod.mk.injEq, Option.some.injEq] at h
      obtain ⟨h1, h2⟩ := h
      rw [← h1]
      simpa using hvalid
    · exact findNearAux_valid s px py existing tape (attempt + 1) fuel (k + 1) p k1 h

/-- A point accepted by the arena-wide phase passed the distance check
against the occupied list. -/
theorem findAnywhereAux_valid (s : SimState) (existing : List Bacteria)
    (tape : Tape) :
    ∀ (fuel k : ℕ) (p : ℚ × ℚ) (k1 : ℕ),
      findAnywhereAux s existing tape fuel k = (some p, k1) →
      is_position_valid s p.1 p.2 existing = true
  | 0, k, p, k1 => by simp [findAnywhereAux]
  | fuel + 1, k, p, k1 => by
    intro h
    simp only [findAnywhereAux] at h
    split at h
    · rename_i hvalid
      simp only [Prod.mk.injEq, Option.some.injEq] at h
      obtain ⟨h1, h2⟩ := h
      rw [← h1]
      simpa using hvalid
    · exact findAnywhereAux_valid s existing tape fuel (k + 2) p k1 h

/-- C7 amended: every position the placer returns either satisfies the
8-unit distance check against the occupied list it was given — which is
the pre-selection population plus the same parent's earlier offspring
only, never other parents' same-tick offspring — or is the unconditional
last-resort offset from the parent, which may violate the distance; the
placer always returns a position. -/
theorem placement_valid_or_last_resort (s : SimState) (px py : ℚ)
    (existing : List Bacteria) (tape : Tape) (k : ℕ) :
    is_position_valid s (find_empty_space_near_parent s px py existing tape k).1.1
      (find_empty_space_near_parent s px py existing tape k).1.2 existing = true ∨
    ∃ j : ℕ,
      (find_empty_space_near_parent s px py existing tape k).1 =
        (max 15 (min (s.canvas_width - 15) (px + tape.rand j)),
         max 15 (min (s.canvas_height - 15) (py + tape.rand (j + 1)))) := by
  unfold find_empty_space_near_parent
  rcases h1 : findNearAux s px py existing tape 0 50 k with ⟨o1, k1⟩
  cases o1 with
  | some p =>
    left
    simpa using findNearAux_valid s px py existing tape 0 50 k p k1 h1
  | none =>
    dsimp only
    rcases h2 : findAnywhereAux s existing tape 100 k1 with ⟨o2, k2⟩
    cases o2 with
    | some p =>
      left
      simpa using findAnywhereAux_valid s existing tape 100 k1 p k2 h2
    | none =>
      right
      exact ⟨k2, rfl⟩
